import Mathlib

/-!
# IVCAP service SDK (Go): readiness gate, artifact publisher, resource fetcher

A shallow embedding of `sdk_service/ivcap_service.go`.

* Go `string` values are Lean strings, byte slices are lists of naturals below 256.
* Every effect the code has on the outside (HTTP calls, sleeping, logging, writing a
  file, calling the caller's callback) is recorded as an `Event` in the `World`, most
  recent event first.  What the outside answers is read from a `Host`: the process
  environment, the HTTP client and the file system.
* Go `int` is the 64 bit signed integer; additions wrap.
* The two tasks of `PublishAsync` talk through a synchronous pipe only, so the read end
  delivers the bytes the producer wrote, in order, and then the status of the first
  close of the write end. The embedding runs the publishing task on that stream; the
  order in which the steps of the two tasks are recorded is a parameter.
* An `Environment` is one built by `NewEnvironment`, whose logger is never nil.
-/

namespace Service

/-! ## Constants -/

def MAX_ATTEMPTS : Int := 10

def ARTIFACT_ID_HEADER : String := "X-Artifact-Id"
def CACHE_ID_HEADER : String := "X-Cache-Id"
def NAME_HEADER : String := "X-Name"
def META_DATA_FOR_ARTIFACT_HEADER : String := "X-Meta-Data-For-Artifact"
def META_DATA_SCHEMA_HEADER : String := "X-Meta-Data-Schema"

def ORDER_ID_ENV : String := "IVCAP_ORDER_ID"
def STORAGE_URL_ENV : String := "IVCAP_STORAGE_URL"
def STORAGE_URL_DEF : String := "http://localhost:8888"
def CACHE_URL_ENV : String := "IVCAP_CACHE_URL"

def READYZ : String := "/readyz"

/-- Nanoseconds in `time.Second`. -/
def Second : Int := 1000000000

/-! ## Data model -/

abbrev Bytes := List Nat

/-- An error value made outside this package (by `net/http`, `net/url`, the file system
or a caller's callback), identified by its message. -/
structure Cause where
  text : String
deriving DecidableEq, Repr

/-- A readable byte stream (`io.Reader`): the bytes it delivers, then either a clean end
of stream (`err = none`) or the read error that ends it. -/
structure Reader where
  data : Bytes
  err : Option Cause
deriving DecidableEq, Repr

/-- The header map `http.Header`, keys in canonical form, first value of each key. -/
abbrev Header := List (String × String)

/-- Go `Header.Set`: replaces the values of `key`. -/
def Header.Set (h : Header) (key value : String) : Header :=
  h.filter (fun kv => kv.1 != key) ++ [(key, value)]

/-- Go `Header.Get`: the first value of `key`, or the empty string. -/
def Header.Get (h : Header) (key : String) : String :=
  match h.lookup key with
  | some v => v
  | none => ""

/-- The fields of `http.Request` the code sets. -/
structure Request where
  method : String
  url : String
  header : Header
  body : Option Reader
deriving DecidableEq, Repr

/-- The fields of `http.Response` the code reads. -/
structure Response where
  status : String
  statusCode : Int
  header : Header
  body : Reader
deriving DecidableEq, Repr

/-- Go `error` values: the three error types of the package, or any other error. -/
inductive GoError where
  | EnvironmentNotReadyError
  | ApiError (Message : String) (Err : Option Cause)
  | HttpError (Request : Option Request) (Response : Option Response) (Err : Option Cause)
  | other (c : Cause)
deriving DecidableEq, Repr

/-- The text of `EnvironmentNotReadyError.Error()`. -/
def EnvironmentNotReadyError_Error : String := "IVCAP environment doesn't seem to ready"

/-- What `http.Get` / `client.Do` hand back: a response and no error, or an error
(with which Go may still return a response, after a failed redirect). -/
inductive HttpResult where
  | ok (resp : Response)
  | fail (resp : Option Response) (err : Cause)
deriving DecidableEq, Repr

/-- The value passed as `meta interface{}` when it is not nil: what `json.Marshal`
makes of it (empty when marshalling fails, the code drops that error). -/
structure MetaValue where
  json : Bytes
deriving DecidableEq, Repr

/-- Implementations of `LoggerI`: the package's `baseLogger` or one the caller injects. -/
inductive LoggerI where
  | baseLogger
  | injected (id : Nat)
deriving DecidableEq, Repr

inductive Level where
  | Error
  | Info
  | Debug
deriving DecidableEq, Repr

/-- Arguments of a logging call. -/
inductive LogArg where
  | str (s : String)
  | int (i : Int)
  | bool (b : Bool)
  | cause (c : Cause)
  | err (e : Option GoError)
  | header (h : Header)
  | metaValue (m : MetaValue)
deriving DecidableEq, Repr

/-- Effects on the outside. -/
inductive Event where
  | log (logger : Option LoggerI) (level : Level) (format : String) (v : List LogArg)
  | stdLog (msg : String)
  | httpGet (url : String)
  | clientDo (req : Request)
  | sleep (d : Int)
  | writeFile (name : String) (data : Bytes) (perm : Nat)
  | handler (body : Reader)
  | bodyClose (url : String)
  | closeWrite (err : Option Cause)
  | closeRead (err : Option GoError)
deriving DecidableEq, Repr

/-- The outside the code talks to. The HTTP answers may depend on how many HTTP calls
the process made before. -/
structure Host where
  lookupEnv : String → Option String
  newRequestErr : String → String → Option Cause
  httpGet : Nat → String → HttpResult
  clientDo : Nat → Request → HttpResult
  writeFileErr : String → Bytes → Option Cause

structure World where
  events : List Event
  files : List (String × Bytes)
deriving DecidableEq, Repr

def World.emit (w : World) (ev : Event) : World :=
  { w with events := ev :: w.events }

def Event.isHttp : Event → Bool
  | .httpGet _ => true
  | .clientDo _ => true
  | _ => false

/-- Number of HTTP calls made so far. -/
def World.httpCalls (w : World) : Nat := w.events.countP Event.isHttp

structure Environment where
  localMode : Bool
  noCaching : Bool
  logger : Option LoggerI
  storageURL : String
  cacheURL : String
deriving DecidableEq, Repr

/-- The option functions `LocalMode`, `Logger`, `NoCaching`. `Logger` sets the logger and
nothing else: the comment above it in the source, "When set, run in local environment",
is the one of `LocalMode` and does not describe it. -/
inductive EnvOption where
  | LocalMode (flag : Bool)
  | Logger (logger : Option LoggerI)
  | NoCaching (flag : Bool)
deriving DecidableEq, Repr

def EnvOption.apply (o : EnvOption) (e : Environment) : Environment :=
  match o with
  | .LocalMode flag => { e with localMode := flag }
  | .Logger logger => { e with logger := logger }
  | .NoCaching flag => { e with noCaching := flag }

def getOptional (host : Host) (key : String) (_default : String) : String :=
  match host.lookupEnv key with
  | some v => v
  | none => _default

def NewEnvironment (options : List EnvOption) (host : Host) : Environment :=
  let e : Environment := ⟨false, false, none, "", ""⟩
  let e : Environment := options.foldl (fun e option => option.apply e) e
  let e : Environment := { e with storageURL := getOptional host STORAGE_URL_ENV STORAGE_URL_DEF }
  let e : Environment :=
    if !e.noCaching then { e with cacheURL := (host.lookupEnv CACHE_URL_ENV).getD "" } else e
  match e.logger with
  | none => { e with logger := some LoggerI.baseLogger }
  | some _ => e

/-! ## Primitives -/

def Environment.Error (e : Environment) (format : String) (v : List LogArg) (w : World) : World :=
  w.emit (.log e.logger .Error format v)

def Environment.Info (e : Environment) (format : String) (v : List LogArg) (w : World) : World :=
  w.emit (.log e.logger .Info format v)

def Environment.Debug (e : Environment) (format : String) (v : List LogArg) (w : World) : World :=
  w.emit (.log e.logger .Debug format v)

/-- Go `http.Get(url)`. -/
def httpGet (host : Host) (url : String) (w : World) : HttpResult × World :=
  (host.httpGet w.httpCalls url, w.emit (.httpGet url))

/-- Go `client.Do(req)`. -/
def clientDo (host : Host) (req : Request) (w : World) : HttpResult × World :=
  (host.clientDo w.httpCalls req, w.emit (.clientDo req))

/-- Go `int` addition result, wrapped to 64 bits. -/
def wrapInt (x : Int) : Int := (x + 2 ^ 63) % 2 ^ 64 - 2 ^ 63

/-! ## Readiness gate -/

/-- The method `Environment.waitForEnvironmentReady`; `fuel` bounds the depth of the recursion,
`none` means it was not enough. -/
def waitForEnvironmentReady (host : Host) (e : Environment) (maxAttempts : Int) :
    Nat → Int → World → Option (Option GoError × World)
  | 0, _, _ => none
  | fuel + 1, attempt, w =>
    let endpoint := getOptional host STORAGE_URL_ENV STORAGE_URL_DEF
    let url := endpoint ++ READYZ
    let w := e.Debug "checking 'ready' at '%s'" [.str url] w
    let (r, w) := httpGet host url w
    match r with
    | .fail _ _ =>
      if attempt > maxAttempts then
        let w := w.emit (.stdLog EnvironmentNotReadyError_Error)
        some (some .EnvironmentNotReadyError, w)
      else
        let delay := 10 * Second
        let w := e.Debug "Waiting for sidecars: attempt #%d delay: %d sec url: %s"
          [.int attempt, .int (delay / Second), .str endpoint] w
        let w := w.emit (.sleep delay)
        waitForEnvironmentReady host e maxAttempts fuel (wrapInt (attempt + 1)) w
    | .ok _ => some (none, w)

def WaitForEnvironmentReady (host : Host) (e : Environment) (maxAttempts : Int)
    (fuel : Nat) (w : World) : Option (Option GoError × World) :=
  if e.localMode then
    some (none, w)
  else
    waitForEnvironmentReady host e maxAttempts fuel 1 w

/-- URLs of the `http.Get` calls made so far, most recent first. -/
def World.gets (w : World) : List String :=
  w.events.filterMap (fun ev => match ev with | .httpGet url => some url | _ => none)

/-- Durations of the sleeps so far, most recent first. -/
def World.sleeps (w : World) : List Int :=
  w.events.filterMap (fun ev => match ev with | .sleep d => some d | _ => none)

/-- Requests passed to `client.Do` so far, most recent first. -/
def World.requests (w : World) : List Request :=
  w.events.filterMap (fun ev => match ev with | .clientDo req => some req | _ => none)

/-- Bodies handed to the caller's consumer callback so far, most recent first. -/
def World.handlerCalls (w : World) : List Reader :=
  w.events.filterMap (fun ev => match ev with | .handler body => some body | _ => none)

/-! ## Artifact publisher and metadata registrar -/

/-- Go `ioutil.ReadAll`: the bytes read and the read error, if one ended the stream. -/
def ReadAll (reader : Reader) : Bytes × Option Cause := (reader.data, reader.err)

/-- Go `ioutil.WriteFile`: on success the file `name` holds exactly `data`. -/
def WriteFile (host : Host) (name : String) (data : Bytes) (perm : Nat) (w : World) :
    Option Cause × World :=
  let w := w.emit (.writeFile name data perm)
  match host.writeFileErr name data with
  | some c => (some c, w)
  | none => (none, { w with files := (name, data) :: w.files.filter (fun f => f.1 != name) })

/-- Content of the local file `name`, if there is one. -/
def World.readFile (w : World) (name : String) : Option Bytes := w.files.lookup name

/-- Go `http.NewRequest`. -/
def NewRequest (host : Host) (method url : String) (body : Option Reader) : Except Cause Request :=
  match host.newRequestErr method url with
  | some c => .error c
  | none => .ok ⟨method, url, [], body⟩

def Request.setHeader (req : Request) (key value : String) : Request :=
  { req with header := req.header.Set key value }

def PublishMetaForArtifact (host : Host) (e : Environment) (name artifactID : String)
    (meta : Option MetaValue) (_imgUrl : String) (w : World) : Option GoError × World :=
  match meta with
  | none => (none, w)
  | some m =>
    let jname := name ++ "-meta.json"
    let url := e.storageURL ++ "/" ++ jname
    let w := e.Debug "starting to upload metadata - meta: %v url: %s" [.metaValue m, .str url] w
    let body := m.json
    match NewRequest host "PUT" url (some ⟨body, none⟩) with
    | .error err =>
      let w := e.Error "creating request failed - %s" [.cause err] w
      (some (.HttpError none none (some err)), w)
    | .ok req =>
      let req := req.setHeader "Content-Type" "application/json"
      let req := req.setHeader META_DATA_FOR_ARTIFACT_HEADER artifactID
      let req := req.setHeader META_DATA_SCHEMA_HEADER "urn:schema:testing:image"
      let req := req.setHeader NAME_HEADER jname
      let (r, w) := clientDo host req w
      match r with
      | .ok resp =>
        let w := e.Info "successfully upload metadata - status" [.str resp.status] w
        (none, w)
      | .fail resp err =>
        let w := e.Error "upload metadata failed - %s" [.cause err] w
        (some (.HttpError (some req) resp (some err)), w)

def Publish (host : Host) (e : Environment) (name contentType : String) (reader : Reader)
    (meta : Option MetaValue) (w : World) : Option GoError × World :=
  if e.localMode then
    let (b, _) := ReadAll reader
    let (_, w) := WriteFile host name b 0o644 w
    (none, w)
  else
    let url := e.storageURL ++ "/" ++ name
    match NewRequest host "PUT" url (some reader) with
    | .error err =>
      let w := e.Error "creating request failed - %s" [.cause err] w
      (some (.other err), w)
    | .ok req =>
      let req := req.setHeader "Content-Type" contentType
      let req := req.setHeader NAME_HEADER name
      let (r, w) := clientDo host req w
      match r with
      | .fail res err =>
        let w := e.Error "client.Do failed - %v" [.cause err] w
        (some (.HttpError (some req) res (some err)), w)
      | .ok res =>
        if res.statusCode >= 300 then
          let w := e.Error "save request failed - %d" [.int res.statusCode] w
          (some (.HttpError (some req) (some res) none), w)
        else
          let artifactID := res.header.Get ARTIFACT_ID_HEADER
          let w := e.Info "Successfully uploaded object as '%s'" [.str artifactID] w
          if artifactID = "" then
            let msg := "Missing '" ++ ARTIFACT_ID_HEADER ++ "' header"
            let w := e.Error msg [] w
            let w := w.emit (.bodyClose url)
            (some (.ApiError msg none), w)
          else
            let w := e.Debug "return headers from object upload - aid: %v h: %v"
              [.str artifactID, .header res.header] w
            let (err, w) := PublishMetaForArtifact host e name artifactID meta url w
            let w := w.emit (.bodyClose url)
            (err, w)

/-! ## Async publish pipeline -/

/-- The counter of a `sync.WaitGroup`: all a caller gets from `Wait` is that it reached 0. -/
structure WaitGroup where
  counter : Int
deriving DecidableEq, Repr

def WaitGroup.Add (wg : WaitGroup) (delta : Int) : WaitGroup := ⟨wg.counter + delta⟩

def WaitGroup.Done (wg : WaitGroup) : WaitGroup := wg.Add (-1)

/-- A producer callback `WriteBodyF`, by what a call of it does with the write end of the
pipe: the bytes it writes, whether it closes the write end itself (and with which
error), and the error it returns. -/
structure WriteBodyF where
  written : Bytes
  closed : Option (Option Cause)
  result : Option Cause
deriving DecidableEq, Repr

/-- What the read end of `io.Pipe()` delivers once the producer task is through: the bytes
written, then the error of the first close of the write end (`pw.CloseWithError(err)`
for a failing callback, `pw.Close()`, a clean end of stream, otherwise). -/
def pipeReader (writeBodyF : WriteBodyF) : Reader :=
  match writeBodyF.closed with
  | some c => ⟨writeBodyF.written, c⟩
  | none => ⟨writeBodyF.written, writeBodyF.result⟩

/-- Events `w1` has on top of `w`, in order of time. -/
def eventsSince (w w1 : World) : List Event :=
  (w1.events.take (w1.events.length - w.events.length)).reverse

/-- One order of the steps of two concurrent tasks, each given in order of time: `true`
lets the first task take its next step, `false` the second; when the schedule is used up
the first task runs to its end, then the second. -/
def interleave : List Bool → List Event → List Event → List Event
  | true :: s, p :: ps, cs => p :: interleave s ps cs
  | false :: s, ps, c :: cs => c :: interleave s ps cs
  | _ :: s, ps, cs => interleave s ps cs
  | [], ps, cs => ps ++ cs

/-- The method `Environment.PublishAsync` followed by `Wait()` on the handle it returns:
the handle and the world when both tasks are done.

The producer task calls `writeBodyF(pw)`, closes the write end with the callback's result
(`pw.CloseWithError(err)`, or `pw.Close()` when it is nil) and logs `writing finished`.
The publishing task calls `Publish` on the read end, closes the read end with the result
(`pr.CloseWithError(err)`) and logs `published`. `schedule` is the order in which the Go
scheduler lets the two tasks take their steps; every order is admitted here, also those
the pipe rules out. What `Publish` does is independent of it: the producer's steps are
neither HTTP calls nor file writes. -/
def PublishAsync (host : Host) (e : Environment) (name contentType : String)
    (meta : Option MetaValue) (writeBodyF : WriteBodyF) (schedule : List Bool) (w : World) :
    WaitGroup × World :=
  let pr := pipeReader writeBodyF
  let wg : WaitGroup := ⟨0⟩
  let wg := wg.Add 2
  let producer : List Event :=
    (match writeBodyF.closed with
      | some c => [.closeWrite c]
      | none => []) ++
    [.closeWrite writeBodyF.result,
      .log e.logger .Debug "writing finished '%s'" [.str name]]
  let wg := wg.Done
  let (err, w1) := Publish host e name contentType pr meta w
  let consumer : List Event :=
    eventsSince w w1 ++
    [.closeRead err, .log e.logger .Debug "published '%s' - '%v'" [.str name, .err err]]
  let wg := wg.Done
  (wg, { events := (interleave schedule producer consumer).reverse ++ w.events,
         files := w1.files })

/-! ## Resource fetcher -/

/-- Go `[]byte(c)` for one code point: its UTF-8 encoding. -/
def utf8Bytes (c : Nat) : Bytes :=
  if c < 0x80 then [c]
  else if c < 0x800 then [0xC0 + c / 64, 0x80 + c % 64]
  else if c < 0x10000 then [0xE0 + c / 4096, 0x80 + c / 64 % 64, 0x80 + c % 64]
  else [0xF0 + c / 262144, 0x80 + c / 4096 % 64, 0x80 + c / 64 % 64, 0x80 + c % 64]

/-- Go `[]byte(s)`. -/
def stringBytes (s : String) : Bytes := s.toList.flatMap (fun c => utf8Bytes c.toNat)

/-- The alphabet of `base64.URLEncoding`. -/
def encodeURL : List Char :=
  "ABCDEFGHIJKLMNOPQRSTUVWXYZabcdefghijklmnopqrstuvwxyz0123456789-_".toList

def encodeChar (v : Nat) : Char := encodeURL.getD (v % 64) 'A'

/-- Go `base64.RawURLEncoding.Encode`: three bytes give four characters, a rest of one
or two bytes gives two or three characters and no padding. -/
def rawURLEncode : Bytes → List Char
  | a :: b :: c :: rest =>
    let val := a * 65536 + b * 256 + c
    encodeChar (val / 262144) :: encodeChar (val / 4096) :: encodeChar (val / 64) ::
      encodeChar val :: rawURLEncode rest
  | [a, b] =>
    let val := a * 65536 + b * 256
    [encodeChar (val / 262144), encodeChar (val / 4096), encodeChar (val / 64)]
  | [a] =>
    let val := a * 65536
    [encodeChar (val / 262144), encodeChar (val / 4096)]
  | [] => []

/-- Go `base64.RawURLEncoding.EncodeToString`. -/
def RawURLEncoding_EncodeToString (src : Bytes) : String := String.mk (rawURLEncode src)

/-- Go `strings.HasPrefix(s, "urn:")`. -/
def hasUrnScheme (s : String) : Bool := "urn:".toList.isPrefixOf s.toList

def GetResource (host : Host) (e : Environment) (url : String)
    (handler : Reader → Option GoError) (w : World) : Option GoError × World :=
  let (url, w) :=
    if hasUrnScheme url then
      let w := e.Info "downloading artifact - urn: %s" [.str url] w
      (e.storageURL ++ "/" ++ url, w)
    else
      let w := e.Info "downloading remote content - url: %s, caching?: %t"
        [.str url, .bool (e.cacheURL != "")] w
      if e.cacheURL != "" then
        (e.cacheURL ++ "/" ++ RawURLEncoding_EncodeToString (stringBytes url), w)
      else
        (url, w)
  let (r, w) := httpGet host url w
  match r with
  | .fail response err =>
    let w := e.Error "downloadImage: GET failed - url: %s, err: %s" [.str url, .cause err] w
    (some (.HttpError none response (some err)), w)
  | .ok response =>
    if response.statusCode != 200 then
      let w := e.Error "getting resource failed - statusCode: %d url: %s"
        [.int response.statusCode, .str url] w
      let w := w.emit (.bodyClose url)
      (some (.HttpError none (some response) none), w)
    else
      let w := e.Debug "downloading '%s' succeeded - size: %s cache-id: %s"
        [.str url, .str (response.header.Get "Content-Length"),
          .str (response.header.Get CACHE_ID_HEADER)] w
      let reader := response.body
      let w := w.emit (.handler reader)
      let err := handler reader
      let w := w.emit (.bodyClose url)
      (err, w)

def GetOrderID (host : Host) : String :=
  match host.lookupEnv ORDER_ID_ENV with
  | some oid => oid
  | none => "???"

/-- The URL of the liveness probe. -/
def readyURL (host : Host) : String := getOptional host STORAGE_URL_ENV STORAGE_URL_DEF ++ READYZ

/-! ## Worlds, requests and targets named in the statements -/

/-- The world after a failed probe that is followed by the sleep. -/
def retryWorld (host : Host) (e : Environment) (attempt : Int) (w : World) : World :=
  ((e.Debug "Waiting for sidecars: attempt #%d delay: %d sec url: %s"
    [.int attempt, .int (10 * Second / Second),
      .str (getOptional host STORAGE_URL_ENV STORAGE_URL_DEF)]
    ((e.Debug "checking 'ready' at '%s'" [.str (readyURL host)] w).emit
      (.httpGet (readyURL host))))).emit (.sleep (10 * Second))

/-- Every HTTP call fails with a transport error; no variable is set in the process
environment, so the storage endpoint is the default one. -/
def allFail : Host :=
  { lookupEnv := fun _ => none
    newRequestErr := fun _ _ => none
    httpGet := fun _ _ => .fail none ⟨"connection refused"⟩
    clientDo := fun _ _ => .fail none ⟨"connection refused"⟩
    writeFileErr := fun _ _ => none }

/-- The world at process start. -/
def w0 : World := ⟨[], []⟩

def unavailable : Response := ⟨"503 Service Unavailable", 503, [], ⟨[], none⟩⟩

/-- The first HTTP call fails with a transport error, every later one is answered with
status 503. -/
def secondAnswers : Host :=
  { lookupEnv := fun _ => none
    newRequestErr := fun _ _ => none
    httpGet := fun i _ => if i = 0 then .fail none ⟨"connection refused"⟩ else .ok unavailable
    clientDo := fun _ _ => .ok unavailable
    writeFileErr := fun _ _ => none }

/-- The URL `GetResource` passes to `http.Get`. -/
def targetOf (e : Environment) (url : String) : String :=
  if hasUrnScheme url then e.storageURL ++ "/" ++ url
  else if e.cacheURL != "" then
    e.cacheURL ++ "/" ++ RawURLEncoding_EncodeToString (stringBytes url)
  else url

/-- The target of a fetch in the words of the specification: storage endpoint `S`, cache
endpoint `C` (empty when absent), no-caching flag `f`, reference `r`. -/
def fetchTarget (S C : String) (f : Bool) (r : String) : String :=
  if hasUrnScheme r then S ++ "/" ++ r
  else if C ≠ "" ∧ f = false then C ++ "/" ++ RawURLEncoding_EncodeToString (stringBytes r)
  else r

/-- The cache endpoint is configured as `http://cache`; every HTTP call is answered with
status 503. -/
def cacheHost : Host :=
  { lookupEnv := fun key => if key = CACHE_URL_ENV then some "http://cache" else none
    newRequestErr := fun _ _ => none
    httpGet := fun _ _ => .ok unavailable
    clientDo := fun _ _ => .ok unavailable
    writeFileErr := fun _ _ => none }

/-- The request `Publish` passes to `client.Do`. -/
def uploadRequest (e : Environment) (name contentType : String) (reader : Reader) : Request :=
  ((⟨"PUT", e.storageURL ++ "/" ++ name, [], some reader⟩ : Request).setHeader
    "Content-Type" contentType).setHeader NAME_HEADER name

/-- The request `PublishMetaForArtifact` passes to `client.Do`. -/
def metaRequest (e : Environment) (name artifactID : String) (m : MetaValue) : Request :=
  ((((⟨"PUT", e.storageURL ++ "/" ++ (name ++ "-meta.json"), [], some ⟨m.json, none⟩⟩ :
    Request).setHeader "Content-Type" "application/json").setHeader
    META_DATA_FOR_ARTIFACT_HEADER artifactID).setHeader
    META_DATA_SCHEMA_HEADER "urn:schema:testing:image").setHeader NAME_HEADER (name ++ "-meta.json")

/-- The world when `Publish` has read a non-empty artifact identifier from the answer
`res` to the upload. -/
def uploadedWorld (e : Environment) (name contentType : String) (reader : Reader)
    (res : Response) (w : World) : World :=
  e.Debug "return headers from object upload - aid: %v h: %v"
    [.str (res.header.Get ARTIFACT_ID_HEADER), .header res.header]
    (e.Info "Successfully uploaded object as '%s'" [.str (res.header.Get ARTIFACT_ID_HEADER)]
      (w.emit (.clientDo (uploadRequest e name contentType reader))))

/-! ## Hosts and inputs of the examples -/

def created : Response :=
  ⟨"201 Created", 201, [(ARTIFACT_ID_HEADER, "urn:ivcap:artifact:1")], ⟨[], none⟩⟩

def noIdentifier : Response := ⟨"200 OK", 200, [], ⟨[], none⟩⟩

/-- The storage service answers every PUT with status 201 and an artifact identifier. -/
def storageHost : Host :=
  { lookupEnv := fun _ => none
    newRequestErr := fun _ _ => none
    httpGet := fun _ _ => .ok created
    clientDo := fun _ _ => .ok created
    writeFileErr := fun _ _ => none }

/-- The upload is answered with status 201 and an identifier, every later HTTP call fails
with a transport error. -/
def metaFails : Host :=
  { lookupEnv := fun _ => none
    newRequestErr := fun _ _ => none
    httpGet := fun _ _ => .ok created
    clientDo := fun i _ => if i = 0 then .ok created else .fail none ⟨"connection reset"⟩
    writeFileErr := fun _ _ => none }

/-- The storage service answers with status 200 and no artifact identifier. -/
def noIdHost : Host :=
  { lookupEnv := fun _ => none
    newRequestErr := fun _ _ => none
    httpGet := fun _ _ => .ok noIdentifier
    clientDo := fun _ _ => .ok noIdentifier
    writeFileErr := fun _ _ => none }

/-- A file system that, as every file system does, refuses to create a file with the
empty name. -/
def plainFs : Host :=
  { lookupEnv := fun _ => none
    newRequestErr := fun _ _ => none
    httpGet := fun _ _ => .ok created
    clientDo := fun _ _ => .ok created
    writeFileErr := fun name _ =>
      if name = "" then some ⟨"open : no such file or directory"⟩ else none }

def png : Reader := ⟨[137, 80, 78, 71], none⟩

def someMeta : MetaValue := ⟨[123, 125]⟩

/-- A producer that writes three bytes and then returns a failure. -/
def failingProducer : WriteBodyF := ⟨[137, 80, 78], none, some ⟨"draw failed"⟩⟩

/-- A producer that writes four bytes and returns without failure. -/
def goodProducer : WriteBodyF := ⟨[137, 80, 78, 71], none, none⟩

/-- A producer that writes three bytes, closes the write end itself with `Close()` and
then returns a failure. -/
def selfClosingProducer : WriteBodyF := ⟨[137, 80, 78], some none, some ⟨"draw failed"⟩⟩

/-- The publishing task takes all its steps before the producer task takes one. -/
def publisherFirst : List Bool := List.replicate 16 false

/-- The line `PublishAsync` logs when its publishing task is through. -/
def publishedLine (e : Environment) (name : String) (err : Option GoError) : Event :=
  .log e.logger .Debug "published '%s' - '%v'" [.str name, .err err]

/-! # Theorems

## Bookkeeping lemmas -/

@[simp] theorem httpCalls_emit (w : World) (ev : Event) :
    (w.emit ev).httpCalls = w.httpCalls + (if ev.isHttp then 1 else 0) := by
  simp [World.httpCalls, World.emit, List.countP_cons]

@[simp] theorem gets_emit_httpGet (w : World) (url : String) :
    (w.emit (.httpGet url)).gets = url :: w.gets := by
  simp [World.gets, World.emit]

@[simp] theorem gets_emit_log (w : World) (l : Option LoggerI) (lv : Level) (f : String)
    (v : List LogArg) : (w.emit (.log l lv f v)).gets = w.gets := by
  simp [World.gets, World.emit]

@[simp] theorem gets_emit_sleep (w : World) (d : Int) : (w.emit (.sleep d)).gets = w.gets := by
  simp [World.gets, World.emit]

@[simp] theorem gets_emit_stdLog (w : World) (m : String) : (w.emit (.stdLog m)).gets = w.gets := by
  simp [World.gets, World.emit]

@[simp] theorem sleeps_emit_sleep (w : World) (d : Int) :
    (w.emit (.sleep d)).sleeps = d :: w.sleeps := by
  simp [World.sleeps, World.emit]

@[simp] theorem sleeps_emit_log (w : World) (l : Option LoggerI) (lv : Level) (f : String)
    (v : List LogArg) : (w.emit (.log l lv f v)).sleeps = w.sleeps := by
  simp [World.sleeps, World.emit]

@[simp] theorem sleeps_emit_httpGet (w : World) (url : String) :
    (w.emit (.httpGet url)).sleeps = w.sleeps := by
  simp [World.sleeps, World.emit]

@[simp] theorem sleeps_emit_stdLog (w : World) (m : String) :
    (w.emit (.stdLog m)).sleeps = w.sleeps := by
  simp [World.sleeps, World.emit]

@[simp] theorem gets_emit_bodyClose (w : World) (url : String) :
    (w.emit (.bodyClose url)).gets = w.gets := by
  simp [World.gets, World.emit]

@[simp] theorem requests_emit_bodyClose (w : World) (url : String) :
    (w.emit (.bodyClose url)).requests = w.requests := by
  simp [World.requests, World.emit]

@[simp] theorem requests_emit_log (w : World) (l : Option LoggerI) (lv : Level) (f : String)
    (v : List LogArg) : (w.emit (.log l lv f v)).requests = w.requests := by
  simp [World.requests, World.emit]

@[simp] theorem requests_emit_clientDo (w : World) (req : Request) :
    (w.emit (.clientDo req)).requests = req :: w.requests := by
  simp [World.requests, World.emit]

@[simp] theorem gets_emit_clientDo (w : World) (req : Request) :
    (w.emit (.clientDo req)).gets = w.gets := by
  simp [World.gets, World.emit]

@[simp] theorem requests_emit_writeFile (w : World) (name : String) (b : Bytes) (p : Nat) :
    (w.emit (.writeFile name b p)).requests = w.requests := by
  simp [World.requests, World.emit]

@[simp] theorem gets_emit_writeFile (w : World) (name : String) (b : Bytes) (p : Nat) :
    (w.emit (.writeFile name b p)).gets = w.gets := by
  simp [World.gets, World.emit]

theorem wrapInt_le (x : Int) (h : -(2 ^ 63) ≤ x) : wrapInt x ≤ x := by
  unfold wrapInt
  omega

theorem wrapInt_ge (x : Int) : -(2 ^ 63) ≤ wrapInt x := by
  unfold wrapInt
  omega

theorem wrapInt_eq (x : Int) (h : -(2 ^ 63) ≤ x) (h2 : x < 2 ^ 63) : wrapInt x = x := by
  unfold wrapInt
  omega

@[simp] theorem retryWorld_httpCalls (host : Host) (e : Environment) (attempt : Int) (w : World) :
    (retryWorld host e attempt w).httpCalls = w.httpCalls + 1 := by
  simp [retryWorld, Environment.Debug, Event.isHttp]

@[simp] theorem retryWorld_gets (host : Host) (e : Environment) (attempt : Int) (w : World) :
    (retryWorld host e attempt w).gets = readyURL host :: w.gets := by
  simp [retryWorld, Environment.Debug]

@[simp] theorem retryWorld_sleeps (host : Host) (e : Environment) (attempt : Int) (w : World) :
    (retryWorld host e attempt w).sleeps = 10 * Second :: w.sleeps := by
  simp [retryWorld, Environment.Debug]

theorem waitForEnvironmentReady_retry (host : Host) (e : Environment) (maxAttempts attempt : Int)
    (fuel : Nat) (w : World) (r : Option Response) (c : Cause)
    (h0 : host.httpGet w.httpCalls (readyURL host) = .fail r c) (hna : ¬ attempt > maxAttempts) :
    waitForEnvironmentReady host e maxAttempts (fuel + 1) attempt w =
      waitForEnvironmentReady host e maxAttempts fuel (wrapInt (attempt + 1))
        (retryWorld host e attempt w) := by
  simp [waitForEnvironmentReady, httpGet, Environment.Debug, readyURL, Event.isHttp,
    retryWorld] at h0 ⊢
  simp [h0, hna]

/-- After `j` failed probes, none of them past `maxAttempts`, an answered probe ends the
wait: `j + 1` probes, `j` sleeps of 10 seconds, no error. -/
theorem waitForEnvironmentReady_answered (host : Host) (e : Environment) (maxAttempts : Int)
    (resp : Response) :
    ∀ (j : Nat) (attempt : Int) (w : World),
      -(2 ^ 63) ≤ attempt → attempt + j ≤ maxAttempts →
      (∀ i, i < j → ∃ r c, host.httpGet (w.httpCalls + i) (readyURL host) = .fail r c) →
      host.httpGet (w.httpCalls + j) (readyURL host) = .ok resp →
      ∀ fuel, j + 1 ≤ fuel →
        ∃ w', waitForEnvironmentReady host e maxAttempts fuel attempt w = some (none, w') ∧
          w'.gets = List.replicate (j + 1) (readyURL host) ++ w.gets ∧
          w'.sleeps = List.replicate j (10 * Second) ++ w.sleeps := by
  intro j
  induction j with
  | zero =>
    intro attempt w _ _ _ hok fuel hfuel
    obtain ⟨fuel, rfl⟩ : ∃ f, fuel = f + 1 := ⟨fuel - 1, by omega⟩
    simp [waitForEnvironmentReady, httpGet, Environment.Debug, readyURL, Event.isHttp] at hok ⊢
    simp [hok]
  | succ j ih =>
    intro attempt w hlo hle hfail hok fuel hfuel
    obtain ⟨fuel, rfl⟩ : ∃ f, fuel = f + 1 := ⟨fuel - 1, by omega⟩
    obtain ⟨r, c, h0⟩ := hfail 0 (by omega)
    have hna : ¬ attempt > maxAttempts := by push_cast at hle; omega
    rw [waitForEnvironmentReady_retry host e maxAttempts attempt fuel w r c h0 hna]
    have hw := wrapInt_le (attempt + 1) (by omega)
    obtain ⟨w', hrun, hg, hs⟩ := ih (wrapInt (attempt + 1)) (retryWorld host e attempt w)
      (wrapInt_ge _) (by push_cast at hle; omega)
      (by
        intro i hi
        have := hfail (i + 1) (by omega)
        simpa [Nat.add_assoc, Nat.add_comm 1 i] using this)
      (by simpa [Nat.add_assoc, Nat.add_comm 1 j] using hok)
      fuel (by omega)
    refine ⟨w', hrun, ?_, ?_⟩
    · rw [hg]
      simp [List.replicate_succ', List.append_assoc]
    · rw [hs]
      simp [List.replicate_succ', List.append_assoc]

/-- When every probe fails, the wait ends only at the probe numbered `maxAttempts + 1`:
with `n` attempts left up to `maxAttempts`, it probes `n + 1` times and sleeps `n` times. -/
theorem waitForEnvironmentReady_exhausted (host : Host) (e : Environment) (maxAttempts : Int)
    (hmax : maxAttempts + 1 < 2 ^ 63)
    (hfail : ∀ i, ∃ r c, host.httpGet i (readyURL host) = .fail r c) :
    ∀ (n : Nat) (attempt : Int) (w : World),
      -(2 ^ 63) ≤ attempt → attempt + n = maxAttempts + 1 →
      ∀ fuel, n + 1 ≤ fuel →
        ∃ w', waitForEnvironmentReady host e maxAttempts fuel attempt w =
            some (some .EnvironmentNotReadyError, w') ∧
          w'.gets = List.replicate (n + 1) (readyURL host) ++ w.gets ∧
          w'.sleeps = List.replicate n (10 * Second) ++ w.sleeps := by
  intro n
  induction n with
  | zero =>
    intro attempt w _ hle fuel hfuel
    obtain ⟨fuel, rfl⟩ : ∃ f, fuel = f + 1 := ⟨fuel - 1, by omega⟩
    obtain ⟨r, c, h0⟩ := hfail w.httpCalls
    have ha : attempt > maxAttempts := by push_cast at hle; omega
    simp [waitForEnvironmentReady, httpGet, Environment.Debug, readyURL, Event.isHttp] at h0 ⊢
    simp [h0, ha]
  | succ n ih =>
    intro attempt w hlo hle fuel hfuel
    obtain ⟨fuel, rfl⟩ : ∃ f, fuel = f + 1 := ⟨fuel - 1, by omega⟩
    obtain ⟨r, c, h0⟩ := hfail w.httpCalls
    have hna : ¬ attempt > maxAttempts := by push_cast at hle; omega
    rw [waitForEnvironmentReady_retry host e maxAttempts attempt fuel w r c h0 hna]
    have hw := wrapInt_eq (attempt + 1) (by omega) (by push_cast at hle; omega)
    obtain ⟨w', hrun, hg, hs⟩ := ih (wrapInt (attempt + 1)) (retryWorld host e attempt w)
      (wrapInt_ge _) (by push_cast at hle; omega) fuel (by omega)
    refine ⟨w', hrun, ?_, ?_⟩
    · rw [hg]
      simp [List.replicate_succ', List.append_assoc]
    · rw [hs]
      simp [List.replicate_succ', List.append_assoc]

/-- C1, what the code does: outside local mode, when every liveness probe fails with a
transport error, `WaitForEnvironmentReady(maxAttempts)` returns the
`EnvironmentNotReadyError` after `maxAttempts + 1` probes and `maxAttempts` sleeps of 10
seconds, one probe and one sleep more than `maxAttempts` attempts allow. -/
theorem C1_exhausted_after_one_probe_too_many (options : List EnvOption) (host : Host)
    (maxAttempts : Int) (w : World)
    (hmode : (NewEnvironment options host).localMode = false)
    (h1 : 1 ≤ maxAttempts) (hmax : maxAttempts + 1 < 2 ^ 63)
    (hfail : ∀ i, ∃ r c, host.httpGet i (readyURL host) = .fail r c) :
    ∀ fuel, maxAttempts.toNat + 1 ≤ fuel →
      ∃ w', WaitForEnvironmentReady host (NewEnvironment options host) maxAttempts fuel w =
          some (some .EnvironmentNotReadyError, w') ∧
        w'.gets = List.replicate (maxAttempts.toNat + 1) (readyURL host) ++ w.gets ∧
        w'.sleeps = List.replicate maxAttempts.toNat (10 * Second) ++ w.sleeps := by
  intro fuel hfuel
  have h := waitForEnvironmentReady_exhausted host (NewEnvironment options host) maxAttempts
    hmax hfail maxAttempts.toNat 1 w (by norm_num) (by omega) fuel hfuel
  simpa [WaitForEnvironmentReady, hmode] using h

/-- C1 at `maxAttempts = 3`: 4 probes of the default endpoint and 3 sleeps of 10 seconds
before the readiness failure, where the claim has 3 probes and 2 sleeps. -/
theorem C1_three_attempts_four_probes :
    ∃ w', WaitForEnvironmentReady allFail (NewEnvironment [] allFail) 3 4 w0 =
        some (some .EnvironmentNotReadyError, w') ∧
      w'.gets = ["http://localhost:8888/readyz", "http://localhost:8888/readyz",
        "http://localhost:8888/readyz", "http://localhost:8888/readyz"] ∧
      w'.sleeps = [10000000000, 10000000000, 10000000000] :=
  C1_exhausted_after_one_probe_too_many [] allFail 3 w0 rfl (by decide) (by decide)
    (fun _ => ⟨_, _, rfl⟩) 4 (by decide)

/-- C8: outside local mode, for `1 ≤ k ≤ maxAttempts`, when the first `k - 1` liveness
probes fail with a transport error and probe `k` is answered with any response, whatever
its status, `WaitForEnvironmentReady(maxAttempts)` returns success after exactly `k`
probes and `k - 1` sleeps of 10 seconds. -/
theorem C8_ready_at_probe_k (options : List EnvOption) (host : Host) (maxAttempts : Int)
    (k : Nat) (resp : Response) (w : World)
    (hmode : (NewEnvironment options host).localMode = false)
    (hk : 1 ≤ k) (hkmax : (k : Int) ≤ maxAttempts)
    (hfail : ∀ i, i + 1 < k → ∃ r c, host.httpGet (w.httpCalls + i) (readyURL host) = .fail r c)
    (hok : host.httpGet (w.httpCalls + (k - 1)) (readyURL host) = .ok resp) :
    ∀ fuel, k ≤ fuel →
      ∃ w', WaitForEnvironmentReady host (NewEnvironment options host) maxAttempts fuel w =
          some (none, w') ∧
        w'.gets = List.replicate k (readyURL host) ++ w.gets ∧
        w'.sleeps = List.replicate (k - 1) (10 * Second) ++ w.sleeps := by
  intro fuel hfuel
  obtain ⟨j, rfl⟩ : ∃ j, k = j + 1 := ⟨k - 1, by omega⟩
  have h := waitForEnvironmentReady_answered host (NewEnvironment options host) maxAttempts
    resp j 1 w (by norm_num) (by push_cast at hkmax; omega)
    (fun i hi => hfail i (by omega)) (by simpa using hok) fuel hfuel
  simpa [WaitForEnvironmentReady, hmode] using h

/-- C8 at `k = 2`, `maxAttempts = 10`: one failed probe, one sleep, then a probe answered
with status 503 gives success after 2 probes and 1 sleep. -/
theorem C8_ready_at_second_probe :
    ∃ w', WaitForEnvironmentReady secondAnswers (NewEnvironment [] secondAnswers)
          MAX_ATTEMPTS 2 w0 = some (none, w') ∧
      w'.gets = ["http://localhost:8888/readyz", "http://localhost:8888/readyz"] ∧
      w'.sleeps = [10000000000] :=
  C8_ready_at_probe_k [] secondAnswers MAX_ATTEMPTS 2 unavailable w0 rfl (by decide) (by decide)
    (fun i hi => by
      have hi0 : i = 0 := by omega
      subst hi0
      exact ⟨_, _, rfl⟩)
    rfl 2 (by decide)

theorem foldl_apply_storageURL (options : List EnvOption) (e : Environment) :
    (options.foldl (fun e option => option.apply e) e).storageURL = e.storageURL ∧
    (options.foldl (fun e option => option.apply e) e).cacheURL = e.cacheURL := by
  induction options generalizing e with
  | nil => simp
  | cons o os ih =>
    simp only [List.foldl_cons]
    rw [(ih (o.apply e)).1, (ih (o.apply e)).2]
    cases o <;> simp [EnvOption.apply]

theorem NewEnvironment_storageURL (options : List EnvOption) (host : Host) :
    (NewEnvironment options host).storageURL = getOptional host STORAGE_URL_ENV STORAGE_URL_DEF := by
  unfold NewEnvironment
  simp only []
  split <;> split <;> simp

theorem NewEnvironment_cacheURL (options : List EnvOption) (host : Host) :
    (NewEnvironment options host).cacheURL =
      if (NewEnvironment options host).noCaching then ""
      else (host.lookupEnv CACHE_URL_ENV).getD "" := by
  unfold NewEnvironment
  simp only []
  split <;> split <;> simp_all [(foldl_apply_storageURL options ⟨false, false, none, "", ""⟩).2]

/-- The option `Logger` leaves the local mode flag as it is. -/
theorem Logger_keeps_localMode (logger : Option LoggerI) (e : Environment) :
    ((EnvOption.Logger logger).apply e).localMode = e.localMode := by
  simp [EnvOption.apply]

theorem NewEnvironment_logger (options : List EnvOption) (host : Host) :
    (NewEnvironment options host).logger ≠ none := by
  unfold NewEnvironment
  simp only []
  split <;> simp_all

theorem targetOf_NewEnvironment (options : List EnvOption) (host : Host) (r : String) :
    targetOf (NewEnvironment options host) r =
      fetchTarget (getOptional host STORAGE_URL_ENV STORAGE_URL_DEF)
        ((host.lookupEnv CACHE_URL_ENV).getD "") (NewEnvironment options host).noCaching r := by
  unfold targetOf fetchTarget
  rw [NewEnvironment_storageURL, NewEnvironment_cacheURL]
  cases (NewEnvironment options host).noCaching <;> simp

theorem GetResource_gets (host : Host) (e : Environment) (url : String)
    (handler : Reader → Option GoError) (w : World) :
    (GetResource host e url handler w).2.gets = targetOf e url :: w.gets ∧
    (GetResource host e url handler w).2.requests = w.requests := by
  unfold GetResource targetOf httpGet
  split_ifs <;> simp only [] <;> split <;> try split_ifs
  all_goals simp [World.gets, World.requests, World.emit, Environment.Info, Environment.Error,
    Environment.Debug]

theorem GetResource_fail (host : Host) (e : Environment) (url : String)
    (handler : Reader → Option GoError) (w : World) (rs : Option Response) (c : Cause)
    (h : host.httpGet w.httpCalls (targetOf e url) = .fail rs c) :
    (GetResource host e url handler w).1 = some (.HttpError none rs (some c)) ∧
    (GetResource host e url handler w).2.handlerCalls = w.handlerCalls := by
  unfold GetResource httpGet
  unfold targetOf at h
  split_ifs at h ⊢ <;>
    simp_all [World.handlerCalls, World.emit, Environment.Info, Environment.Error,
      Environment.Debug, Event.isHttp, World.httpCalls]

theorem GetResource_status (host : Host) (e : Environment) (url : String)
    (handler : Reader → Option GoError) (w : World) (resp : Response)
    (h : host.httpGet w.httpCalls (targetOf e url) = .ok resp) (hs : resp.statusCode ≠ 200) :
    (GetResource host e url handler w).1 = some (.HttpError none (some resp) none) ∧
    (GetResource host e url handler w).2.handlerCalls = w.handlerCalls := by
  unfold GetResource httpGet
  unfold targetOf at h
  split_ifs at h ⊢ <;>
    simp_all [World.handlerCalls, World.emit, Environment.Info, Environment.Error,
      Environment.Debug, Event.isHttp, World.httpCalls]

theorem GetResource_ok (host : Host) (e : Environment) (url : String)
    (handler : Reader → Option GoError) (w : World) (resp : Response)
    (h : host.httpGet w.httpCalls (targetOf e url) = .ok resp) (hs : resp.statusCode = 200) :
    (GetResource host e url handler w).1 = handler resp.body ∧
    (GetResource host e url handler w).2.handlerCalls = resp.body :: w.handlerCalls := by
  unfold GetResource httpGet
  unfold targetOf at h
  split_ifs at h ⊢ <;>
    simp_all [World.handlerCalls, World.emit, Environment.Info, Environment.Error,
      Environment.Debug, Event.isHttp, World.httpCalls]

/-- C7: for an environment built by `NewEnvironment` with storage endpoint `S`, cache
endpoint `C` (empty when not configured) and no-caching flag `f`, `GetResource` makes one
`http.Get`, to `S/r` when `r` starts with `urn:`, else to `C/<unpadded URL-safe base64 of
r>` when `C` is not empty and `f` is false, else to `r` itself. For `https://x.test/a b`
and cache endpoint `http://cache` that is `http://cache/aHR0cHM6Ly94LnRlc3QvYSBi` with
caching on and the reference itself with caching off. -/
theorem C7_fetch_target (options : List EnvOption) (host : Host) (r : String)
    (handler : Reader → Option GoError) (w : World) :
    (GetResource host (NewEnvironment options host) r handler w).2.gets =
        fetchTarget (getOptional host STORAGE_URL_ENV STORAGE_URL_DEF)
          ((host.lookupEnv CACHE_URL_ENV).getD "") (NewEnvironment options host).noCaching r
          :: w.gets ∧
      ((NewEnvironment options host).noCaching = true →
        (GetResource host (NewEnvironment options host) r handler w).2.gets =
          (if hasUrnScheme r then getOptional host STORAGE_URL_ENV STORAGE_URL_DEF ++ "/" ++ r
            else r) :: w.gets) ∧
      (NewEnvironment [.NoCaching false] cacheHost).noCaching = false ∧
      (GetResource cacheHost (NewEnvironment [.NoCaching false] cacheHost)
        "https://x.test/a b" handler w0).2.gets = ["http://cache/aHR0cHM6Ly94LnRlc3QvYSBi"] ∧
      (NewEnvironment [.NoCaching true] cacheHost).noCaching = true ∧
      (GetResource cacheHost (NewEnvironment [.NoCaching true] cacheHost)
        "https://x.test/a b" handler w0).2.gets = ["https://x.test/a b"] := by
  have hg := (GetResource_gets host (NewEnvironment options host) r handler w).1
  rw [targetOf_NewEnvironment] at hg
  refine ⟨hg, ?_, rfl, rfl, rfl, rfl⟩
  intro hf
  rw [hg, hf]
  simp [fetchTarget]

/-- C9: `GetResource` calls the consumer exactly when the GET is answered without
transport error and with status 200; it then returns the consumer's result as it is. In
every other case (transport error, any other status) it returns an `HttpError` and does
not call the consumer. -/
theorem C9_consumer_called_iff_status_200 (options : List EnvOption) (host : Host)
    (url : String) (handler : Reader → Option GoError) (w : World) :
    ((GetResource host (NewEnvironment options host) url handler w).2.handlerCalls ≠
          w.handlerCalls ↔
        ∃ resp, host.httpGet w.httpCalls (targetOf (NewEnvironment options host) url) = .ok resp ∧
          resp.statusCode = 200) ∧
      (∀ resp, host.httpGet w.httpCalls (targetOf (NewEnvironment options host) url) = .ok resp →
        resp.statusCode = 200 →
        (GetResource host (NewEnvironment options host) url handler w).1 = handler resp.body ∧
        (GetResource host (NewEnvironment options host) url handler w).2.handlerCalls =
          resp.body :: w.handlerCalls) ∧
      ((¬ ∃ resp, host.httpGet w.httpCalls (targetOf (NewEnvironment options host) url) = .ok resp ∧
          resp.statusCode = 200) →
        (∃ rs er, (GetResource host (NewEnvironment options host) url handler w).1 =
          some (.HttpError none rs er)) ∧
        (GetResource host (NewEnvironment options host) url handler w).2.handlerCalls =
          w.handlerCalls) := by
  have hno : (¬ ∃ resp, host.httpGet w.httpCalls (targetOf (NewEnvironment options host) url) =
        .ok resp ∧ resp.statusCode = 200) →
      (∃ rs er, (GetResource host (NewEnvironment options host) url handler w).1 =
        some (.HttpError none rs er)) ∧
      (GetResource host (NewEnvironment options host) url handler w).2.handlerCalls =
        w.handlerCalls := by
    intro hn
    cases h : host.httpGet w.httpCalls (targetOf (NewEnvironment options host) url) with
    | fail rs c =>
      have := GetResource_fail host _ url handler w rs c h
      exact ⟨⟨rs, some c, this.1⟩, this.2⟩
    | ok resp =>
      have hs : resp.statusCode ≠ 200 := fun hs => hn ⟨resp, h, hs⟩
      have := GetResource_status host _ url handler w resp h hs
      exact ⟨⟨some resp, none, this.1⟩, this.2⟩
  refine ⟨⟨?_, ?_⟩, ?_, hno⟩
  · intro hne
    by_contra hn
    exact hne (hno hn).2
  · rintro ⟨resp, h, hs⟩
    rw [(GetResource_ok host _ url handler w resp h hs).2]
    intro heq
    have := congrArg List.length heq
    simp at this
  · intro resp h hs
    exact GetResource_ok host _ url handler w resp h hs

theorem uploadRequest_header (e : Environment) (name contentType : String) (reader : Reader) :
    (uploadRequest e name contentType reader).header =
      [("Content-Type", contentType), (NAME_HEADER, name)] := by
  simp [uploadRequest, Request.setHeader, Header.Set, NAME_HEADER]

theorem metaRequest_header (e : Environment) (name artifactID : String) (m : MetaValue) :
    (metaRequest e name artifactID m).header =
      [("Content-Type", "application/json"), (META_DATA_FOR_ARTIFACT_HEADER, artifactID),
        (META_DATA_SCHEMA_HEADER, "urn:schema:testing:image"),
        (NAME_HEADER, name ++ "-meta.json")] := by
  simp [metaRequest, Request.setHeader, Header.Set, NAME_HEADER, META_DATA_FOR_ARTIFACT_HEADER,
    META_DATA_SCHEMA_HEADER]

theorem metaRequest_ne_uploadRequest (e : Environment) (name contentType artifactID : String)
    (reader : Reader) (m : MetaValue) :
    metaRequest e name artifactID m ≠ uploadRequest e name contentType reader := by
  intro h
  have := congrArg (fun r => r.header.length) h
  simp [uploadRequest_header, metaRequest_header] at this

@[simp] theorem uploadedWorld_requests (e : Environment) (name contentType : String)
    (reader : Reader) (res : Response) (w : World) :
    (uploadedWorld e name contentType reader res w).requests =
      uploadRequest e name contentType reader :: w.requests := by
  simp [uploadedWorld, World.requests, World.emit, Environment.Debug, Environment.Info]

@[simp] theorem uploadedWorld_gets (e : Environment) (name contentType : String)
    (reader : Reader) (res : Response) (w : World) :
    (uploadedWorld e name contentType reader res w).gets = w.gets := by
  simp [uploadedWorld, World.gets, World.emit, Environment.Debug, Environment.Info]

@[simp] theorem uploadedWorld_httpCalls (e : Environment) (name contentType : String)
    (reader : Reader) (res : Response) (w : World) :
    (uploadedWorld e name contentType reader res w).httpCalls = w.httpCalls + 1 := by
  simp [uploadedWorld, World.httpCalls, World.emit, Environment.Debug, Environment.Info,
    Event.isHttp]

theorem Publish_local (host : Host) (e : Environment) (name contentType : String)
    (reader : Reader) (meta : Option MetaValue) (w : World) (hmode : e.localMode = true) :
    Publish host e name contentType reader meta w =
      (none, (WriteFile host name reader.data 0o644 w).2) := by
  simp [Publish, hmode, ReadAll]

theorem Publish_newRequest_fail (host : Host) (e : Environment) (name contentType : String)
    (reader : Reader) (meta : Option MetaValue) (w : World) (c : Cause)
    (hmode : e.localMode = false)
    (hreq : host.newRequestErr "PUT" (e.storageURL ++ "/" ++ name) = some c) :
    (Publish host e name contentType reader meta w).1 = some (.other c) ∧
    (Publish host e name contentType reader meta w).2.requests = w.requests ∧
    (Publish host e name contentType reader meta w).2.gets = w.gets := by
  simp [Publish, hmode, NewRequest, hreq, Environment.Error, World.requests, World.gets,
    World.emit]

theorem Publish_transport (host : Host) (e : Environment) (name contentType : String)
    (reader : Reader) (meta : Option MetaValue) (w : World) (rs : Option Response) (c : Cause)
    (hmode : e.localMode = false)
    (hreq : host.newRequestErr "PUT" (e.storageURL ++ "/" ++ name) = none)
    (hdo : host.clientDo w.httpCalls (uploadRequest e name contentType reader) = .fail rs c) :
    (Publish host e name contentType reader meta w).1 =
      some (.HttpError (some (uploadRequest e name contentType reader)) rs (some c)) ∧
    (Publish host e name contentType reader meta w).2.requests =
      uploadRequest e name contentType reader :: w.requests ∧
    (Publish host e name contentType reader meta w).2.gets = w.gets := by
  unfold uploadRequest at hdo
  simp [Publish, hmode, NewRequest, hreq, clientDo, hdo, Environment.Error, World.requests,
    World.gets, World.emit, uploadRequest]

theorem Publish_status (host : Host) (e : Environment) (name contentType : String)
    (reader : Reader) (meta : Option MetaValue) (w : World) (res : Response)
    (hmode : e.localMode = false)
    (hreq : host.newRequestErr "PUT" (e.storageURL ++ "/" ++ name) = none)
    (hdo : host.clientDo w.httpCalls (uploadRequest e name contentType reader) = .ok res)
    (hs : res.statusCode ≥ 300) :
    (Publish host e name contentType reader meta w).1 =
      some (.HttpError (some (uploadRequest e name contentType reader)) (some res) none) ∧
    (Publish host e name contentType reader meta w).2.requests =
      uploadRequest e name contentType reader :: w.requests ∧
    (Publish host e name contentType reader meta w).2.gets = w.gets := by
  unfold uploadRequest at hdo
  simp [Publish, hmode, NewRequest, hreq, clientDo, hdo, hs, Environment.Error, World.requests,
    World.gets, World.emit, uploadRequest]

theorem Publish_missing_id (host : Host) (e : Environment) (name contentType : String)
    (reader : Reader) (meta : Option MetaValue) (w : World) (res : Response)
    (hmode : e.localMode = false)
    (hreq : host.newRequestErr "PUT" (e.storageURL ++ "/" ++ name) = none)
    (hdo : host.clientDo w.httpCalls (uploadRequest e name contentType reader) = .ok res)
    (hs : res.statusCode < 300) (hid : res.header.Get ARTIFACT_ID_HEADER = "") :
    (Publish host e name contentType reader meta w).1 =
      some (.ApiError "Missing 'X-Artifact-Id' header" none) ∧
    (Publish host e name contentType reader meta w).2.requests =
      uploadRequest e name contentType reader :: w.requests ∧
    (Publish host e name contentType reader meta w).2.gets = w.gets := by
  unfold uploadRequest at hdo
  have hs' : ¬ res.statusCode ≥ 300 := by omega
  simp [Publish, hmode, NewRequest, hreq, clientDo, hdo, hs', hid, Environment.Error,
    Environment.Info, World.requests, World.gets, World.emit, uploadRequest]
  decide

theorem Publish_registers (host : Host) (e : Environment) (name contentType : String)
    (reader : Reader) (meta : Option MetaValue) (w : World) (res : Response)
    (hmode : e.localMode = false)
    (hreq : host.newRequestErr "PUT" (e.storageURL ++ "/" ++ name) = none)
    (hdo : host.clientDo w.httpCalls (uploadRequest e name contentType reader) = .ok res)
    (hs : res.statusCode < 300) (hid : res.header.Get ARTIFACT_ID_HEADER ≠ "") :
    Publish host e name contentType reader meta w =
      ((PublishMetaForArtifact host e name (res.header.Get ARTIFACT_ID_HEADER) meta
          (e.storageURL ++ "/" ++ name) (uploadedWorld e name contentType reader res w)).1,
        (PublishMetaForArtifact host e name (res.header.Get ARTIFACT_ID_HEADER) meta
          (e.storageURL ++ "/" ++ name) (uploadedWorld e name contentType reader res w)).2.emit
          (.bodyClose (e.storageURL ++ "/" ++ name))) := by
  unfold uploadRequest at hdo
  have hs' : ¬ res.statusCode ≥ 300 := by omega
  simp [Publish, hmode, NewRequest, hreq, clientDo, hdo, hs', hid, uploadedWorld, uploadRequest]

/-! ## Metadata registrar -/

theorem PublishMetaForArtifact_nil (host : Host) (e : Environment) (name artifactID imgUrl : String)
    (w : World) : PublishMetaForArtifact host e name artifactID none imgUrl w = (none, w) := by
  simp [PublishMetaForArtifact]

theorem PublishMetaForArtifact_transport (host : Host) (e : Environment)
    (name artifactID imgUrl : String) (m : MetaValue) (w : World) (rs : Option Response)
    (c : Cause)
    (hreq : host.newRequestErr "PUT" (e.storageURL ++ "/" ++ (name ++ "-meta.json")) = none)
    (hdo : host.clientDo w.httpCalls (metaRequest e name artifactID m) = .fail rs c) :
    (PublishMetaForArtifact host e name artifactID (some m) imgUrl w).1 =
      some (.HttpError (some (metaRequest e name artifactID m)) rs (some c)) := by
  unfold metaRequest at hdo
  simp [PublishMetaForArtifact, NewRequest, hreq, clientDo, hdo, Environment.Debug,
    Environment.Error, World.emit, World.httpCalls, Event.isHttp, metaRequest] at hdo ⊢

/-- An `HttpError` from the metadata registrar never carries the upload request. -/
theorem PublishMetaForArtifact_not_upload (host : Host) (e : Environment)
    (name artifactID imgUrl contentType : String) (reader : Reader) (meta : Option MetaValue)
    (w : World) (rs : Option Response) (er : Option Cause) :
    (PublishMetaForArtifact host e name artifactID meta imgUrl w).1 ≠
      some (.HttpError (some (uploadRequest e name contentType reader)) rs er) := by
  cases meta with
  | none => simp [PublishMetaForArtifact]
  | some m =>
    have hne := metaRequest_ne_uploadRequest e name contentType artifactID reader m
    unfold metaRequest at hne
    unfold PublishMetaForArtifact NewRequest clientDo
    simp only []
    split
    · rename_i heq
      split at heq <;> simp_all
    · rename_i heq
      split at heq
      · simp_all
      · simp only [Except.ok.injEq] at heq
        subst heq
        split
        · simp
        · intro h
          simp only [Option.some.injEq, GoError.HttpError.injEq] at h
          exact hne h.1

/-! ## Artifact publisher: upload, identifier, registration -/

/-- C4: in networked mode, when the storage PUT is answered without transport error,
with a status below 300 and an empty `X-Artifact-Id` header, `Publish` returns an
`ApiError` (not an `HttpError`, not success) and the upload stays the only request: no
metadata registration request is made, whatever the metadata is. -/
theorem C4_missing_identifier_is_api_error (options : List EnvOption) (host : Host)
    (name contentType : String) (reader : Reader) (meta : Option MetaValue) (w : World)
    (res : Response)
    (hmode : (NewEnvironment options host).localMode = false)
    (hreq : host.newRequestErr "PUT" ((NewEnvironment options host).storageURL ++ "/" ++ name) = none)
    (hdo : host.clientDo w.httpCalls
      (uploadRequest (NewEnvironment options host) name contentType reader) = .ok res)
    (hs : res.statusCode < 300) (hid : res.header.Get ARTIFACT_ID_HEADER = "") :
    (∃ msg, (Publish host (NewEnvironment options host) name contentType reader meta w).1 =
        some (.ApiError msg none)) ∧
      (∀ rq rs er, (Publish host (NewEnvironment options host) name contentType reader meta w).1 ≠
        some (.HttpError rq rs er)) ∧
      (Publish host (NewEnvironment options host) name contentType reader meta w).1 ≠ none ∧
      (Publish host (NewEnvironment options host) name contentType reader meta w).2.requests =
        uploadRequest (NewEnvironment options host) name contentType reader :: w.requests ∧
      (Publish host (NewEnvironment options host) name contentType reader meta w).2.gets =
        w.gets := by
  obtain ⟨h1, h2, h3⟩ := Publish_missing_id host _ name contentType reader meta w res hmode hreq
    hdo hs hid
  refine ⟨⟨_, h1⟩, ?_, ?_, h2, h3⟩
  · intro rq rs er
    rw [h1]
    simp
  · rw [h1]
    simp

/-- C4 on a storage service that answers 200 without identifier: the `ApiError`, and the
upload as the only request although metadata was given. -/
theorem C4_missing_identifier_example :
    (∃ msg, (Publish noIdHost (NewEnvironment [] noIdHost) "out.png" "image/png" png
        (some someMeta) w0).1 = some (.ApiError msg none)) ∧
      (∀ rq rs er, (Publish noIdHost (NewEnvironment [] noIdHost) "out.png" "image/png" png
        (some someMeta) w0).1 ≠ some (.HttpError rq rs er)) ∧
      (Publish noIdHost (NewEnvironment [] noIdHost) "out.png" "image/png" png
        (some someMeta) w0).1 ≠ none ∧
      (Publish noIdHost (NewEnvironment [] noIdHost) "out.png" "image/png" png
        (some someMeta) w0).2.requests =
        [uploadRequest (NewEnvironment [] noIdHost) "out.png" "image/png" png] ∧
      (Publish noIdHost (NewEnvironment [] noIdHost) "out.png" "image/png" png
        (some someMeta) w0).2.gets = [] :=
  C4_missing_identifier_is_api_error [] noIdHost "out.png" "image/png" png (some someMeta) w0
    noIdentifier rfl rfl rfl (by decide) rfl

/-- C5: in networked mode, when the storage PUT is answered with a status below 300 and a
non-empty artifact identifier, `Publish` returns exactly what `PublishMetaForArtifact`
returns for that name, identifier and metadata: a transport failure of the metadata PUT
comes back as an `HttpError`, and with nil metadata the result is success and the upload
stays the only request. -/
theorem C5_publish_returns_registration_outcome (options : List EnvOption) (host : Host)
    (name contentType : String) (reader : Reader) (meta : Option MetaValue) (w : World)
    (res : Response)
    (hmode : (NewEnvironment options host).localMode = false)
    (hreq : host.newRequestErr "PUT" ((NewEnvironment options host).storageURL ++ "/" ++ name) = none)
    (hdo : host.clientDo w.httpCalls
      (uploadRequest (NewEnvironment options host) name contentType reader) = .ok res)
    (hs : res.statusCode < 300) (hid : res.header.Get ARTIFACT_ID_HEADER ≠ "") :
    (Publish host (NewEnvironment options host) name contentType reader meta w).1 =
        (PublishMetaForArtifact host (NewEnvironment options host) name
          (res.header.Get ARTIFACT_ID_HEADER) meta
          ((NewEnvironment options host).storageURL ++ "/" ++ name)
          (uploadedWorld (NewEnvironment options host) name contentType reader res w)).1 ∧
      (∀ m rs c, meta = some m →
        host.newRequestErr "PUT"
          ((NewEnvironment options host).storageURL ++ "/" ++ (name ++ "-meta.json")) = none →
        host.clientDo (w.httpCalls + 1) (metaRequest (NewEnvironment options host) name
          (res.header.Get ARTIFACT_ID_HEADER) m) = .fail rs c →
        (Publish host (NewEnvironment options host) name contentType reader meta w).1 =
          some (.HttpError (some (metaRequest (NewEnvironment options host) name
            (res.header.Get ARTIFACT_ID_HEADER) m)) rs (some c))) ∧
      (meta = none →
        (Publish host (NewEnvironment options host) name contentType reader meta w).1 = none ∧
        (Publish host (NewEnvironment options host) name contentType reader meta w).2.requests =
          uploadRequest (NewEnvironment options host) name contentType reader :: w.requests ∧
        (Publish host (NewEnvironment options host) name contentType reader meta w).2.gets =
          w.gets) := by
  have h := Publish_registers host _ name contentType reader meta w res hmode hreq hdo hs hid
  refine ⟨by rw [h], ?_, ?_⟩
  · intro m rs c hm hreq2 hdo2
    subst hm
    rw [h]
    exact PublishMetaForArtifact_transport host _ name _ _ m _ rs c hreq2 (by simpa using hdo2)
  · intro hm
    subst hm
    rw [h, PublishMetaForArtifact_nil]
    simp

/-- C5 with the metadata PUT failing in transport after an upload answered 201: the
caller gets the `HttpError` of the metadata request. -/
theorem C5_registration_failure_example :
    (Publish metaFails (NewEnvironment [] metaFails) "out.png" "image/png" png
        (some someMeta) w0).1 =
      some (.HttpError (some (metaRequest (NewEnvironment [] metaFails) "out.png"
        "urn:ivcap:artifact:1" someMeta)) none (some ⟨"connection reset"⟩)) :=
  (C5_publish_returns_registration_outcome [] metaFails "out.png" "image/png" png
    (some someMeta) w0 created rfl rfl rfl (by decide) (by decide)).2.1
    someMeta none ⟨"connection reset"⟩ rfl rfl rfl

/-- C6: in networked mode, a storage PUT that fails in transport or is answered with a
status of 300 or more makes `Publish` return an `HttpError` carrying the request and the
response, if one was received, and the upload stays the only request; with a status
below 300 no `HttpError` carrying the upload request is returned. -/
theorem C6_upload_failure_is_http_error (options : List EnvOption) (host : Host)
    (name contentType : String) (reader : Reader) (meta : Option MetaValue) (w : World)
    (hmode : (NewEnvironment options host).localMode = false)
    (hreq : host.newRequestErr "PUT" ((NewEnvironment options host).storageURL ++ "/" ++ name) = none) :
    (∀ rs c, host.clientDo w.httpCalls
        (uploadRequest (NewEnvironment options host) name contentType reader) = .fail rs c →
      (Publish host (NewEnvironment options host) name contentType reader meta w).1 =
        some (.HttpError (some (uploadRequest (NewEnvironment options host) name contentType
          reader)) rs (some c)) ∧
      (Publish host (NewEnvironment options host) name contentType reader meta w).2.requests =
        uploadRequest (NewEnvironment options host) name contentType reader :: w.requests) ∧
    (∀ res, host.clientDo w.httpCalls
        (uploadRequest (NewEnvironment options host) name contentType reader) = .ok res →
      res.statusCode ≥ 300 →
      (Publish host (NewEnvironment options host) name contentType reader meta w).1 =
        some (.HttpError (some (uploadRequest (NewEnvironment options host) name contentType
          reader)) (some res) none) ∧
      (Publish host (NewEnvironment options host) name contentType reader meta w).2.requests =
        uploadRequest (NewEnvironment options host) name contentType reader :: w.requests) ∧
    (∀ res, host.clientDo w.httpCalls
        (uploadRequest (NewEnvironment options host) name contentType reader) = .ok res →
      res.statusCode < 300 →
      ∀ rs er, (Publish host (NewEnvironment options host) name contentType reader meta w).1 ≠
        some (.HttpError (some (uploadRequest (NewEnvironment options host) name contentType
          reader)) rs er)) := by
  refine ⟨?_, ?_, ?_⟩
  · intro rs c hdo
    have h := Publish_transport host _ name contentType reader meta w rs c hmode hreq hdo
    exact ⟨h.1, h.2.1⟩
  · intro res hdo hs
    have h := Publish_status host _ name contentType reader meta w res hmode hreq hdo hs
    exact ⟨h.1, h.2.1⟩
  · intro res hdo hs rs er
    by_cases hid : res.header.Get ARTIFACT_ID_HEADER = ""
    · rw [(Publish_missing_id host _ name contentType reader meta w res hmode hreq hdo hs hid).1]
      simp
    · rw [Publish_registers host _ name contentType reader meta w res hmode hreq hdo hs hid]
      exact PublishMetaForArtifact_not_upload host _ name _ _ contentType reader meta _ rs er

/-- C6 on a storage service that answers 503: the `HttpError` carries the request and
that response, and no second request is made although metadata was given. -/
theorem C6_status_503_example :
    (Publish cacheHost (NewEnvironment [] cacheHost) "out.png" "image/png" png
        (some someMeta) w0).1 =
      some (.HttpError (some (uploadRequest (NewEnvironment [] cacheHost) "out.png" "image/png"
        png)) (some unavailable) none) ∧
    (Publish cacheHost (NewEnvironment [] cacheHost) "out.png" "image/png" png
        (some someMeta) w0).2.requests =
      [uploadRequest (NewEnvironment [] cacheHost) "out.png" "image/png" png] :=
  (C6_upload_failure_is_http_error [] cacheHost "out.png" "image/png" png (some someMeta) w0
    rfl rfl).2.1 unavailable rfl (by decide)

/-! ## Local mode -/

/-- C10 as stated fails: in local mode, publishing under the empty name, which no file
system accepts, leaves no file of that name holding the stream content; the write error
is dropped. -/
theorem C10_empty_name_leaves_no_file :
    (NewEnvironment [.LocalMode true] plainFs).localMode = true ∧
    ¬ ((Publish plainFs (NewEnvironment [.LocalMode true] plainFs) "" "image/png" png none
      w0).2.readFile "" = some png.data) := by
  decide

/-- C10 amended: in local mode `Publish` makes no HTTP call (neither `http.Get` nor
`client.Do`), returns success, and its one effect is the attempt to write the bytes of
the source stream to the file `name` with mode 0644; whenever the file system accepts
that write, the file `name` holds exactly those bytes. -/
theorem C10_local_publish_writes_file (options : List EnvOption) (host : Host)
    (name contentType : String) (reader : Reader) (meta : Option MetaValue) (w : World)
    (hmode : (NewEnvironment options host).localMode = true) :
    (Publish host (NewEnvironment options host) name contentType reader meta w).1 = none ∧
    (Publish host (NewEnvironment options host) name contentType reader meta w).2.requests =
      w.requests ∧
    (Publish host (NewEnvironment options host) name contentType reader meta w).2.gets =
      w.gets ∧
    (Publish host (NewEnvironment options host) name contentType reader meta w).2.events =
      .writeFile name reader.data 0o644 :: w.events ∧
    (host.writeFileErr name reader.data = none →
      (Publish host (NewEnvironment options host) name contentType reader meta w).2.readFile
        name = some reader.data) := by
  rw [Publish_local host _ name contentType reader meta w hmode]
  unfold WriteFile
  cases h : host.writeFileErr name reader.data <;>
    simp [World.requests, World.gets, World.emit, World.readFile, List.lookup]

/-- C10 amended, on a file system that accepts the write: the file `out.png` holds the
four bytes of the stream and no HTTP call was made. -/
theorem C10_local_publish_example :
    (Publish storageHost (NewEnvironment [.LocalMode true] storageHost) "out.png" "image/png"
        png (some someMeta) w0).2.readFile "out.png" = some [137, 80, 78, 71] ∧
    (Publish storageHost (NewEnvironment [.LocalMode true] storageHost) "out.png" "image/png"
        png (some someMeta) w0).2.requests = [] ∧
    (Publish storageHost (NewEnvironment [.LocalMode true] storageHost) "out.png" "image/png"
        png (some someMeta) w0).2.gets = [] :=
  have h := C10_local_publish_writes_file [.LocalMode true] storageHost "out.png" "image/png"
    png (some someMeta) w0 rfl
  ⟨h.2.2.2.2 rfl, h.2.1, h.2.2.1⟩

/-! ## Async publish pipeline -/

theorem emit_suffix (w : World) (ev : Event) : w.events <:+ (w.emit ev).events := by
  simp [World.emit]

theorem PublishMetaForArtifact_suffix (host : Host) (e : Environment)
    (name artifactID imgUrl : String) (meta : Option MetaValue) (w : World) :
    w.events <:+ (PublishMetaForArtifact host e name artifactID meta imgUrl w).2.events := by
  unfold PublishMetaForArtifact NewRequest clientDo
  cases meta with
  | none => simp
  | some m =>
    simp only []
    cases host.newRequestErr "PUT" (e.storageURL ++ "/" ++ (name ++ "-meta.json")) with
    | some c => simp [Environment.Debug, Environment.Error, World.emit, List.suffix_cons_iff]
    | none =>
      simp only []
      split <;>
        simp [Environment.Debug, Environment.Error, Environment.Info, World.emit,
          List.suffix_cons_iff]

theorem Publish_suffix (host : Host) (e : Environment) (name contentType : String)
    (reader : Reader) (meta : Option MetaValue) (w : World) :
    w.events <:+ (Publish host e name contentType reader meta w).2.events := by
  cases hmode : e.localMode with
  | true =>
    rw [Publish_local host e name contentType reader meta w hmode]
    unfold WriteFile
    split <;> simp [World.emit, List.suffix_cons_iff]
  | false =>
    cases hreq : host.newRequestErr "PUT" (e.storageURL ++ "/" ++ name) with
    | some c =>
      simp [Publish, hmode, NewRequest, hreq, Environment.Error, World.emit,
        List.suffix_cons_iff]
    | none =>
      cases hdo : host.clientDo w.httpCalls (uploadRequest e name contentType reader) with
      | fail rs c =>
        unfold uploadRequest at hdo
        simp [Publish, hmode, NewRequest, hreq, clientDo, hdo, Environment.Error, World.emit,
          List.suffix_cons_iff]
      | ok res =>
        by_cases hs : res.statusCode ≥ 300
        · unfold uploadRequest at hdo
          simp [Publish, hmode, NewRequest, hreq, clientDo, hdo, hs, Environment.Error,
            World.emit, List.suffix_cons_iff]
        · by_cases hid : res.header.Get ARTIFACT_ID_HEADER = ""
          · unfold uploadRequest at hdo
            simp [Publish, hmode, NewRequest, hreq, clientDo, hdo, hs, hid, Environment.Error,
              Environment.Info, World.emit, List.suffix_cons_iff]
          · rw [Publish_registers host e name contentType reader meta w res hmode hreq hdo
              (by omega) hid]
            refine List.IsSuffix.trans ?_ (List.IsSuffix.trans
              (PublishMetaForArtifact_suffix host e name _ _ meta _) (emit_suffix _ _))
            simp [uploadedWorld, Environment.Debug, Environment.Info, World.emit,
              List.suffix_cons_iff]

theorem eventsSince_append (w w1 : World) (h : w.events <:+ w1.events) :
    (eventsSince w w1).reverse ++ w.events = w1.events := by
  obtain ⟨t, ht⟩ := h
  unfold eventsSince
  rw [← ht]
  simp

theorem interleave_filterMap {α : Type} (f : Event → Option α) :
    ∀ (s : List Bool) (ps cs : List Event), (∀ p, p ∈ ps → f p = none) →
      (interleave s ps cs).filterMap f = cs.filterMap f := by
  intro s
  induction s with
  | nil =>
    intro ps cs h
    simp only [interleave, List.filterMap_append]
    rw [List.filterMap_eq_nil_iff.mpr h]
    simp
  | cons b s ih =>
    intro ps cs h
    cases b <;> cases ps <;> cases cs <;> simp_all [interleave, List.filterMap_cons]

theorem mem_interleave (x : Event) :
    ∀ (s : List Bool) (ps cs : List Event), x ∈ interleave s ps cs ↔ x ∈ ps ∨ x ∈ cs := by
  intro s
  induction s with
  | nil => intro ps cs; simp [interleave]
  | cons b s ih =>
    intro ps cs
    cases b <;> cases ps <;> cases cs <;> simp_all [interleave, or_assoc, or_left_comm]

theorem PublishAsync_handle (host : Host) (e : Environment) (name contentType : String)
    (meta : Option MetaValue) (writeBodyF : WriteBodyF) (schedule : List Bool) (w : World) :
    (PublishAsync host e name contentType meta writeBodyF schedule w).1 = ⟨0⟩ := by
  simp [PublishAsync, WaitGroup.Add, WaitGroup.Done]

/-- A projection of the events that sees neither the closes of the pipe nor log lines
gives the same on the world after `PublishAsync` as on the world after `Publish`. -/
theorem PublishAsync_filterMap {α : Type} (f : Event → Option α)
    (hw : ∀ c, f (.closeWrite c) = none) (hr : ∀ c, f (.closeRead c) = none)
    (hl : ∀ l lv fmt v, f (.log l lv fmt v) = none)
    (host : Host) (e : Environment) (name contentType : String)
    (meta : Option MetaValue) (writeBodyF : WriteBodyF) (schedule : List Bool) (w : World) :
    (PublishAsync host e name contentType meta writeBodyF schedule w).2.events.filterMap f =
      (Publish host e name contentType (pipeReader writeBodyF) meta w).2.events.filterMap f := by
  have hsuf := Publish_suffix host e name contentType (pipeReader writeBodyF) meta w
  have happ := eventsSince_append w _ hsuf
  simp only [PublishAsync]
  rw [List.filterMap_append, List.filterMap_reverse, interleave_filterMap f]
  · rw [List.filterMap_append]
    simp only [List.filterMap_cons, hr, hl, List.filterMap_nil, List.append_nil]
    rw [← List.filterMap_reverse, ← List.filterMap_append, happ]
  · intro p hp
    cases hcl : writeBodyF.closed with
    | none =>
      simp [hcl] at hp
      rcases hp with h | h <;> subst h <;> simp [hw, hl]
    | some c =>
      simp [hcl] at hp
      rcases hp with h | h | h <;> subst h <;> simp [hw, hl]

theorem PublishAsync_requests (host : Host) (e : Environment) (name contentType : String)
    (meta : Option MetaValue) (writeBodyF : WriteBodyF) (schedule : List Bool) (w : World) :
    (PublishAsync host e name contentType meta writeBodyF schedule w).2.requests =
      (Publish host e name contentType (pipeReader writeBodyF) meta w).2.requests := by
  unfold World.requests
  exact PublishAsync_filterMap _ (fun _ => rfl) (fun _ => rfl) (fun _ _ _ _ => rfl) _ _ _ _ _ _ _ _

theorem PublishAsync_gets (host : Host) (e : Environment) (name contentType : String)
    (meta : Option MetaValue) (writeBodyF : WriteBodyF) (schedule : List Bool) (w : World) :
    (PublishAsync host e name contentType meta writeBodyF schedule w).2.gets =
      (Publish host e name contentType (pipeReader writeBodyF) meta w).2.gets := by
  unfold World.gets
  exact PublishAsync_filterMap _ (fun _ => rfl) (fun _ => rfl) (fun _ _ _ _ => rfl) _ _ _ _ _ _ _ _

/-- Whatever the schedule, the world after `PublishAsync` has the close of the write end
with the callback's result, the close of the read end with the result of `Publish`, and
the line `published` with that result. -/
theorem PublishAsync_closes (host : Host) (e : Environment) (name contentType : String)
    (meta : Option MetaValue) (writeBodyF : WriteBodyF) (schedule : List Bool) (w : World) :
    Event.closeWrite writeBodyF.result ∈
      (PublishAsync host e name contentType meta writeBodyF schedule w).2.events ∧
    Event.closeRead (Publish host e name contentType (pipeReader writeBodyF) meta w).1 ∈
      (PublishAsync host e name contentType meta writeBodyF schedule w).2.events ∧
    publishedLine e name (Publish host e name contentType (pipeReader writeBodyF) meta w).1 ∈
      (PublishAsync host e name contentType meta writeBodyF schedule w).2.events := by
  simp only [PublishAsync, publishedLine, List.mem_append, List.mem_reverse, mem_interleave]
  refine ⟨?_, ?_, ?_⟩ <;> simp

theorem PublishMetaForArtifact_requests (host : Host) (e : Environment)
    (name artifactID imgUrl : String) (m : MetaValue) (w : World)
    (hreq : host.newRequestErr "PUT" (e.storageURL ++ "/" ++ (name ++ "-meta.json")) = none) :
    (PublishMetaForArtifact host e name artifactID (some m) imgUrl w).2.requests =
      metaRequest e name artifactID m :: w.requests := by
  unfold PublishMetaForArtifact NewRequest clientDo
  simp only [hreq]
  split <;> simp [Environment.Debug, Environment.Error, Environment.Info, metaRequest]

/-- C2 as stated fails, in each of its parts. In local mode the producer returns a
failure, the read end of the pipe ends with it, and `Publish` reports success all the
same. In networked mode, when the storage service answers the PUT with status 201 and an
identifier, `Publish` reports success as well and the metadata registration request is
made. And a producer that closed the write end itself before returning its failure
leaves the read end with a clean end of stream. -/
theorem C2_failing_producer_publish_succeeds :
    (failingProducer.result = some ⟨"draw failed"⟩ ∧
      (pipeReader failingProducer).err = some ⟨"draw failed"⟩ ∧
      (NewEnvironment [.LocalMode true] allFail).localMode = true ∧
      (Publish allFail (NewEnvironment [.LocalMode true] allFail) "out.png" "image/png"
        (pipeReader failingProducer) (some someMeta) w0).1 = none ∧
      Event.closeRead none ∈
        (PublishAsync allFail (NewEnvironment [.LocalMode true] allFail) "out.png" "image/png"
          (some someMeta) failingProducer [] w0).2.events) ∧
    ((NewEnvironment [] storageHost).localMode = false ∧
      (Publish storageHost (NewEnvironment [] storageHost) "out.png" "image/png"
        (pipeReader failingProducer) (some someMeta) w0).1 = none ∧
      (PublishAsync storageHost (NewEnvironment [] storageHost) "out.png" "image/png"
        (some someMeta) failingProducer publisherFirst w0).2.requests =
        [metaRequest (NewEnvironment [] storageHost) "out.png" "urn:ivcap:artifact:1" someMeta,
          uploadRequest (NewEnvironment [] storageHost) "out.png" "image/png"
            (pipeReader failingProducer)]) ∧
    (selfClosingProducer.result = some ⟨"draw failed"⟩ ∧
      (pipeReader selfClosingProducer).err = none) := by
  decide

/-- C2 amended: when the producer callback returns a failure and has not closed the
write end itself, `PublishAsync` closes the write end with that failure and the read end
of the pipe ends with it; `Publish` is run on that stream and its result goes to the
close of the read end and to the line `published`, under every schedule. In local mode
that result is success, without any HTTP call. In networked mode the failing stream is
the body of the storage PUT, and `Publish` returns a failure with no metadata
registration request (no request, or the upload only) in every case but one: when the
PUT is answered with a status below 300 and an identifier, the result is that of the
metadata registration, which is success with the upload as the only request for nil
metadata and makes its request otherwise. -/
theorem C2_producer_failure (options : List EnvOption) (host : Host)
    (name contentType : String) (meta : Option MetaValue) (writeBodyF : WriteBodyF)
    (schedule : List Bool) (w : World) (c : Cause)
    (hres : writeBodyF.result = some c) (hcl : writeBodyF.closed = none) :
    (pipeReader writeBodyF).err = some c ∧
    Event.closeWrite (some c) ∈
      (PublishAsync host (NewEnvironment options host) name contentType meta writeBodyF
        schedule w).2.events ∧
    Event.closeRead (Publish host (NewEnvironment options host) name contentType
        (pipeReader writeBodyF) meta w).1 ∈
      (PublishAsync host (NewEnvironment options host) name contentType meta writeBodyF
        schedule w).2.events ∧
    publishedLine (NewEnvironment options host) name
        (Publish host (NewEnvironment options host) name contentType (pipeReader writeBodyF)
          meta w).1 ∈
      (PublishAsync host (NewEnvironment options host) name contentType meta writeBodyF
        schedule w).2.events ∧
    ((NewEnvironment options host).localMode = true →
      (Publish host (NewEnvironment options host) name contentType (pipeReader writeBodyF)
        meta w).1 = none ∧
      (PublishAsync host (NewEnvironment options host) name contentType meta writeBodyF
        schedule w).2.requests = w.requests ∧
      (PublishAsync host (NewEnvironment options host) name contentType meta writeBodyF
        schedule w).2.gets = w.gets) ∧
    ((NewEnvironment options host).localMode = false →
      (uploadRequest (NewEnvironment options host) name contentType
        (pipeReader writeBodyF)).body = some (pipeReader writeBodyF) ∧
      ((¬ ∃ res,
          host.newRequestErr "PUT" ((NewEnvironment options host).storageURL ++ "/" ++ name) =
            none ∧
          host.clientDo w.httpCalls (uploadRequest (NewEnvironment options host) name
            contentType (pipeReader writeBodyF)) = .ok res ∧
          res.statusCode < 300 ∧ res.header.Get ARTIFACT_ID_HEADER ≠ "") →
        (Publish host (NewEnvironment options host) name contentType (pipeReader writeBodyF)
          meta w).1 ≠ none ∧
        ((PublishAsync host (NewEnvironment options host) name contentType meta writeBodyF
            schedule w).2.requests = w.requests ∨
          (PublishAsync host (NewEnvironment options host) name contentType meta writeBodyF
            schedule w).2.requests =
            uploadRequest (NewEnvironment options host) name contentType
              (pipeReader writeBodyF) :: w.requests)) ∧
      (∀ res,
        host.newRequestErr "PUT" ((NewEnvironment options host).storageURL ++ "/" ++ name) =
          none →
        host.clientDo w.httpCalls (uploadRequest (NewEnvironment options host) name
          contentType (pipeReader writeBodyF)) = .ok res →
        res.statusCode < 300 → res.header.Get ARTIFACT_ID_HEADER ≠ "" →
        (Publish host (NewEnvironment options host) name contentType (pipeReader writeBodyF)
            meta w).1 =
          (PublishMetaForArtifact host (NewEnvironment options host) name
            (res.header.Get ARTIFACT_ID_HEADER) meta
            ((NewEnvironment options host).storageURL ++ "/" ++ name)
            (uploadedWorld (NewEnvironment options host) name contentType
              (pipeReader writeBodyF) res w)).1 ∧
        (meta = none →
          (Publish host (NewEnvironment options host) name contentType
            (pipeReader writeBodyF) meta w).1 = none ∧
          (PublishAsync host (NewEnvironment options host) name contentType meta writeBodyF
            schedule w).2.requests =
            uploadRequest (NewEnvironment options host) name contentType
              (pipeReader writeBodyF) :: w.requests) ∧
        (∀ m, meta = some m →
          host.newRequestErr "PUT"
            ((NewEnvironment options host).storageURL ++ "/" ++ (name ++ "-meta.json")) = none →
          (PublishAsync host (NewEnvironment options host) name contentType meta writeBodyF
            schedule w).2.requests =
            metaRequest (NewEnvironment options host) name (res.header.Get ARTIFACT_ID_HEADER)
                m ::
              uploadRequest (NewEnvironment options host) name contentType
                (pipeReader writeBodyF) :: w.requests))) := by
  have herr : (pipeReader writeBodyF).err = some c := by simp [pipeReader, hcl, hres]
  have hev := PublishAsync_closes host (NewEnvironment options host) name contentType meta
    writeBodyF schedule w
  rw [hres] at hev
  refine ⟨herr, hev.1, hev.2.1, hev.2.2, ?_, ?_⟩
  · intro hmode
    rw [PublishAsync_requests, PublishAsync_gets,
      Publish_local host _ name contentType _ meta w hmode]
    simp only [WriteFile]
    split <;> simp [World.requests, World.gets, World.emit]
  · intro hmode
    rw [PublishAsync_requests]
    refine ⟨by simp [uploadRequest, Request.setHeader], ?_, ?_⟩
    · intro hna
      cases hreq : host.newRequestErr "PUT"
          ((NewEnvironment options host).storageURL ++ "/" ++ name) with
      | some c' =>
        have h := Publish_newRequest_fail host _ name contentType (pipeReader writeBodyF) meta
          w c' hmode hreq
        exact ⟨by rw [h.1]; simp, Or.inl h.2.1⟩
      | none =>
        cases hdo : host.clientDo w.httpCalls (uploadRequest (NewEnvironment options host)
            name contentType (pipeReader writeBodyF)) with
        | fail rs c' =>
          have h := Publish_transport host _ name contentType (pipeReader writeBodyF) meta w
            rs c' hmode hreq hdo
          exact ⟨by rw [h.1]; simp, Or.inr h.2.1⟩
        | ok res =>
          by_cases hs : res.statusCode ≥ 300
          · have h := Publish_status host _ name contentType (pipeReader writeBodyF) meta w
              res hmode hreq hdo hs
            exact ⟨by rw [h.1]; simp, Or.inr h.2.1⟩
          · by_cases hid : res.header.Get ARTIFACT_ID_HEADER = ""
            · have h := Publish_missing_id host _ name contentType (pipeReader writeBodyF)
                meta w res hmode hreq hdo (by omega) hid
              exact ⟨by rw [h.1]; simp, Or.inr h.2.1⟩
            · exact absurd ⟨res, hreq, hdo, by omega, hid⟩ hna
    · intro res hreq hdo hs hid
      have h := Publish_registers host _ name contentType (pipeReader writeBodyF) meta w res
        hmode hreq hdo hs hid
      refine ⟨by rw [h], ?_, ?_⟩
      · intro hm
        subst hm
        rw [h, PublishMetaForArtifact_nil]
        simp
      · intro m hm hreq2
        subst hm
        rw [h]
        simp [PublishMetaForArtifact_requests host _ name _ _ m _ hreq2]

/-- C2 amended, for the producer that fails after three bytes, in networked mode against
a storage service that answers 503: the write end is closed with the producer's failure,
the body of the PUT ends with it, `Publish` fails and the upload is the only request. -/
theorem C2_producer_failure_example :
    (pipeReader failingProducer).err = some ⟨"draw failed"⟩ ∧
    Event.closeWrite (some ⟨"draw failed"⟩) ∈
      (PublishAsync cacheHost (NewEnvironment [] cacheHost) "out.png" "image/png"
        (some someMeta) failingProducer [] w0).2.events ∧
    (uploadRequest (NewEnvironment [] cacheHost) "out.png" "image/png"
      (pipeReader failingProducer)).body = some ⟨[137, 80, 78], some ⟨"draw failed"⟩⟩ ∧
    (Publish cacheHost (NewEnvironment [] cacheHost) "out.png" "image/png"
      (pipeReader failingProducer) (some someMeta) w0).1 ≠ none ∧
    ((PublishAsync cacheHost (NewEnvironment [] cacheHost) "out.png" "image/png"
        (some someMeta) failingProducer [] w0).2.requests = [] ∨
      (PublishAsync cacheHost (NewEnvironment [] cacheHost) "out.png" "image/png"
        (some someMeta) failingProducer [] w0).2.requests =
        [uploadRequest (NewEnvironment [] cacheHost) "out.png" "image/png"
          (pipeReader failingProducer)]) :=
  have h := C2_producer_failure [] cacheHost "out.png" "image/png" (some someMeta)
    failingProducer [] w0 ⟨"draw failed"⟩ rfl rfl
  have hna : ¬ ∃ res,
      cacheHost.newRequestErr "PUT" ((NewEnvironment [] cacheHost).storageURL ++ "/" ++ "out.png") =
        none ∧
      cacheHost.clientDo w0.httpCalls (uploadRequest (NewEnvironment [] cacheHost) "out.png"
        "image/png" (pipeReader failingProducer)) = .ok res ∧
      res.statusCode < 300 ∧ res.header.Get ARTIFACT_ID_HEADER ≠ "" := by
    rintro ⟨res, _, hdo, hs, _⟩
    have hu : HttpResult.ok unavailable = .ok res := hdo
    injection hu with hu
    subst hu
    exact absurd hs (by decide)
  ⟨h.1, h.2.1, (h.2.2.2.2.2 rfl).1, ((h.2.2.2.2.2 rfl).2.1 hna).1,
    ((h.2.2.2.2.2 rfl).2.1 hna).2⟩

/-- C3 as stated fails: a run whose `Publish` succeeds, one whose upload fails and one
whose metadata registration fails hand the caller the same handle. -/
theorem C3_same_handle_for_success_and_failure :
    (Publish storageHost (NewEnvironment [] storageHost) "out.png" "image/png"
      (pipeReader goodProducer) (some someMeta) w0).1 = none ∧
    (Publish allFail (NewEnvironment [] allFail) "out.png" "image/png"
      (pipeReader goodProducer) (some someMeta) w0).1 ≠ none ∧
    (Publish metaFails (NewEnvironment [] metaFails) "out.png" "image/png"
      (pipeReader goodProducer) (some someMeta) w0).1 ≠ none ∧
    (PublishAsync storageHost (NewEnvironment [] storageHost) "out.png" "image/png"
      (some someMeta) goodProducer [] w0).1 =
      (PublishAsync allFail (NewEnvironment [] allFail) "out.png" "image/png"
        (some someMeta) goodProducer [] w0).1 ∧
    (PublishAsync storageHost (NewEnvironment [] storageHost) "out.png" "image/png"
      (some someMeta) goodProducer [] w0).1 =
      (PublishAsync metaFails (NewEnvironment [] metaFails) "out.png" "image/png"
        (some someMeta) goodProducer [] w0).1 := by
  decide

/-- C3 amended: what `PublishAsync` hands back is a wait handle only; after waiting its
counter is 0 in every run and under every schedule, whether `Publish` or its metadata
registration failed or not. The result of `Publish` is passed to the close of the read
end of the pipe (`pr.CloseWithError(err)`) and to the logger of the environment, in the
Debug line `published`. -/
theorem C3_handle_carries_no_outcome (options : List EnvOption) (host : Host)
    (name contentType : String) (meta : Option MetaValue) (writeBodyF : WriteBodyF)
    (schedule : List Bool) (w : World) :
    (PublishAsync host (NewEnvironment options host) name contentType meta writeBodyF
      schedule w).1 = ⟨0⟩ ∧
    Event.closeRead (Publish host (NewEnvironment options host) name contentType
        (pipeReader writeBodyF) meta w).1 ∈
      (PublishAsync host (NewEnvironment options host) name contentType meta writeBodyF
        schedule w).2.events ∧
    publishedLine (NewEnvironment options host) name
        (Publish host (NewEnvironment options host) name contentType (pipeReader writeBodyF)
          meta w).1 ∈
      (PublishAsync host (NewEnvironment options host) name contentType meta writeBodyF
        schedule w).2.events :=
  ⟨PublishAsync_handle _ _ _ _ _ _ _ _,
    (PublishAsync_closes _ _ _ _ _ _ _ _).2.1, (PublishAsync_closes _ _ _ _ _ _ _ _).2.2⟩

end Service
